import Mathlib

/-!
Shallow embedding of `main.py` of the Fund-Info-Fetcher repository, together
with theorems settling the claims about it.

Conventions of the embedding:
* Python strings are Lean `String`s (operated on as `List Char`).
* Python's regex class `\d` is modelled as an ASCII decimal digit
  (`Char.isDigit`); every string the program actually handles is covered.
* Exceptions raised inside modelled code are `Except` errors.
* Machine floats are modelled by their exactly parsed rational value; the
  rounding of a decimal literal to a binary float is abstracted away (no claim
  depends on the rounded value).
-/

namespace FundInfo

/-- Python `int(s)` on a nonempty string of ASCII decimal digits. -/
def natOfDigits (ds : List Char) : Nat :=
  ds.foldl (fun a c => 10 * a + (c.toNat - 48)) 0

/-! ## Schema constants (`main.py` lines 22-47) -/

def RELEASE_ASSET_NAME : String := "fund-info-fetcher-win64.zip"

def RELEASE_EXECUTABLE_NAME : String := "基金信息生成器.exe"

/-- The module-level `__version__` string. -/
def localVersionString : String := "0.2.0"

/-- `class ExcelCellDataType(Enum)` with members `string`, `date`, `number`. -/
inductive ExcelCellDataType where
  | string
  | date
  | number
deriving DecidableEq

/-- The `fieldnames` constant (line 36). -/
def fieldnames : List String :=
  ["基金名称", "基金代码", "净值日期", "单位净值", "日增长率", "估算日期", "实时估值", "估算增长率", "分红送配"]

/-- The `fieldtypes` constant (lines 37-47). -/
def fieldtypes : List ExcelCellDataType :=
  [ExcelCellDataType.string,
   ExcelCellDataType.string,
   ExcelCellDataType.date,
   ExcelCellDataType.number,
   ExcelCellDataType.string,
   ExcelCellDataType.string,
   ExcelCellDataType.number,
   ExcelCellDataType.string,
   ExcelCellDataType.string]

/-! ## Version parsing (`main.py` lines 50-53)

`parse_version_number` runs
`re.match(r"v?(?P<major>\d+)\.(?P<minor>\d+)\.(?P<patch>\d+)", s)` and
converts the three groups with `int`. `re.match` anchors at the start of the
string only: input after the matched part is ignored. Two regex facts shape
the embedding below: a greedy `\d+` that is followed by a literal `.` never
backtracks into its digits (a dot is not a digit), so each group is the
maximal digit run; and the optional `v?` is equivalent to unconditionally
consuming one leading 'v', because declining a present 'v' would force `\d+`
to match 'v' and fail. -/

/-- The regex body after the optional 'v': `\d+\.\d+\.\d+`, each `\d+` a
maximal ASCII digit run, trailing input allowed. -/
def parseVersionAfterV (cs1 : List Char) : Option (Nat × Nat × Nat) :=
  let d1 := cs1.takeWhile Char.isDigit
  let r1 := cs1.dropWhile Char.isDigit
  if d1 = [] then none
  else if r1.head? = some '.' then
    let d2 := r1.tail.takeWhile Char.isDigit
    let r2 := r1.tail.dropWhile Char.isDigit
    if d2 = [] then none
    else if r2.head? = some '.' then
      let d3 := r2.tail.takeWhile Char.isDigit
      if d3 = [] then none
      else some (natOfDigits d1, natOfDigits d2, natOfDigits d3)
    else none
  else none

/-- The full pattern `v?\d+\.\d+\.\d+` anchored at the start. -/
def parseVersionCore (cs : List Char) : Option (Nat × Nat × Nat) :=
  parseVersionAfterV (if cs.head? = some 'v' then cs.tail else cs)

/-- `parse_version_number(s)`: `none` models the `AttributeError` raised when
`re.match` returns `None` (no match at the start of the string). -/
def parse_version_number (s : String) : Option (Nat × Nat × Nat) :=
  parseVersionCore s.data

/-- The claim's shape, transcribed from the spec's words: an optional leading
'v' followed by three nonempty dot-separated decimal digit runs whose integer
values are M, N, P, and nothing else. -/
def VersionShapeL (cs : List Char) (M N P : Nat) : Prop :=
  ∃ (v : Bool) (d1 d2 d3 : List Char),
    d1 ≠ [] ∧ d2 ≠ [] ∧ d3 ≠ [] ∧
    (∀ c ∈ d1, Char.isDigit c = true) ∧
    (∀ c ∈ d2, Char.isDigit c = true) ∧
    (∀ c ∈ d3, Char.isDigit c = true) ∧
    cs = (if v then ['v'] else []) ++ d1 ++ '.' :: (d2 ++ '.' :: d3) ∧
    M = natOfDigits d1 ∧ N = natOfDigits d2 ∧ P = natOfDigits d3

/-- The shape on strings. -/
def VersionShape (s : String) (M N P : Nat) : Prop :=
  VersionShapeL s.data M N P

/-! ## Fund-code cleaning (`main.py` lines 212-214)

`codes = list(filter(lambda code: re.fullmatch(r"\d{6}", code), codes))`:
a line is kept exactly when the whole line is six decimal digits. -/

/-- `re.fullmatch(r"\d{6}", code)` viewed as a Boolean: the entire string is
exactly six ASCII decimal digits. -/
def isSixDigitCode (s : String) : Bool :=
  s.data.length = 6 && s.data.all Char.isDigit

/-- The cleaning step of `main`: keep exactly the six-digit lines, in order. -/
def cleanCodes (lines : List String) : List String :=
  lines.filter isSixDigitCode

/-! ## Asset lookup (`main.py` lines 72-82) -/

/-- The fields of a release-asset JSON object that the program reads. -/
structure ReleaseAsset where
  name : String
  url : String
deriving DecidableEq

inductive AssetErr where
  /-- `RuntimeError("No asset with name ... can be found ...")` (line 75). -/
  | notFound (name : String)
  /-- `RuntimeError("More than one assets with name ... are found ...")` (line 79). -/
  | ambiguous (name : String)
deriving DecidableEq

/-- The selection logic of `get_latest_released_asset` (lines 72-82):
filter the asset list by exact name equality, fail on zero or on more than one
candidate, otherwise return `candidates[0]`. -/
def findAsset (assets : List ReleaseAsset) (name : String) : Except AssetErr ReleaseAsset :=
  let candidates := assets.filter (fun asset => asset.name = name)
  if candidates.length = 0 then
    .error (.notFound name)
  else if candidates.length > 1 then
    .error (.ambiguous name)
  else
    -- `candidates[0]`; the empty case cannot occur since the length is 1 here.
    match candidates with
    | a :: _ => .ok a
    | [] => .error (.notFound name)

/-! ## Version comparison (`main.py` lines 182-184)

`check_update` decides update availability by
`parse_version_number(latest_version) > parse_version_number(__version__)`,
Python's lexicographic comparison of `(major, minor, patch)` triples. -/

def Version := Nat × Nat × Nat
deriving DecidableEq

/-- Python's `>` on two 3-tuples of integers: the first unequal component
decides. This is the comparison `check_update` performs (line 184). -/
def pyTupleGt (a b : Nat × Nat × Nat) : Bool :=
  if a.1 ≠ b.1 then decide (a.1 > b.1)
  else if a.2.1 ≠ b.2.1 then decide (a.2.1 > b.2.1)
  else decide (a.2.2 > b.2.2)

/-- The spec's `compare(a, b)`: compare major, then minor, then patch. -/
def compareVersion (a b : Nat × Nat × Nat) : Ordering :=
  if a.1 < b.1 then .lt
  else if b.1 < a.1 then .gt
  else if a.2.1 < b.2.1 then .lt
  else if b.2.1 < a.2.1 then .gt
  else if a.2.2 < b.2.2 then .lt
  else if b.2.2 < a.2.2 then .gt
  else .eq

/-- `check_update`'s availability condition on already-parsed versions:
an update is taken to be available when remote > local. -/
def updateAvailable (remote localv : Nat × Nat × Nat) : Bool :=
  pyTupleGt remote localv

/-! ## Archive member name repair (`main.py` line 171)

`transformed_executable_name = RELEASE_EXECUTABLE_NAME.encode("gbk").decode("cp437")`.
The GBK byte sequences and the CP437 code-page table below are the standard
published tables of those encodings. -/

/-- Code points of CP437 for the bytes 128..255 (bytes below 128 are ASCII). -/
def cp437HighTable : List Nat :=
  [199, 252, 233, 226, 228, 224, 229, 231, 234, 235, 232, 239, 238, 236, 196, 197,
   201, 230, 198, 244, 246, 242, 251, 249, 255, 214, 220, 162, 163, 165, 8359, 402,
   225, 237, 243, 250, 241, 209, 170, 186, 191, 8976, 172, 189, 188, 161, 171, 187,
   9617, 9618, 9619, 9474, 9508, 9569, 9570, 9558, 9557, 9571, 9553, 9559, 9565, 9564, 9563, 9488,
   9492, 9524, 9516, 9500, 9472, 9532, 9566, 9567, 9562, 9556, 9577, 9574, 9568, 9552, 9580, 9575,
   9576, 9572, 9573, 9561, 9560, 9554, 9555, 9579, 9578, 9496, 9484, 9608, 9604, 9612, 9616, 9600,
   945, 223, 915, 960, 931, 963, 181, 964, 934, 920, 937, 948, 8734, 966, 949, 8745,
   8801, 177, 8805, 8804, 8992, 8993, 247, 8776, 176, 8729, 183, 8730, 8319, 178, 9632, 160]

/-- `bytes.decode("cp437")` on a single byte: CP437 is total on all 256 bytes. -/
def cp437DecodeByte (b : Nat) : Char :=
  if b < 128 then Char.ofNat b
  else Char.ofNat (cp437HighTable.getD (b - 128) 0)

/-- `str.encode("gbk")` on a single character, restricted to the characters
that occur in `RELEASE_EXECUTABLE_NAME` (the only string the program encodes):
ASCII encodes as itself, and the listed CJK characters encode as their
standard two GBK bytes. Other characters are outside the modelled domain. -/
def gbkEncodeChar (c : Char) : Option (List Nat) :=
  if c.toNat < 128 then some [c.toNat]
  else if c = '基' then some [0xBB, 0xF9]
  else if c = '金' then some [0xBD, 0xF0]
  else if c = '信' then some [0xD0, 0xC5]
  else if c = '息' then some [0xCF, 0xA2]
  else if c = '生' then some [0xC9, 0xFA]
  else if c = '成' then some [0xB3, 0xC9]
  else if c = '器' then some [0xC6, 0xF7]
  else none

/-- The name-repair step: re-encode the true name with GBK and reinterpret the
resulting bytes under CP437 (`s.encode("gbk").decode("cp437")`). -/
def nameRepair (s : String) : Option String :=
  (s.data.mapM gbkEncodeChar).map (fun bss => String.mk (bss.flatten.map cp437DecodeByte))

/-- The `transformed_executable_name` that `update` passes to `f.extract`
as the stored member name (line 171-173). -/
def transformedExecutableName : Option String :=
  nameRepair RELEASE_EXECUTABLE_NAME

/-! ## Versioned install filename (`main.py` lines 174-179) -/

/-- Index of the last '.' in a character list, if any. -/
def lastDotIdx (cs : List Char) : Option Nat :=
  cs.enum.foldl (fun acc p => if p.2 = '.' then some p.1 else acc) none

/-- `os.path.splitext` for names without directory separators (the only names
the program splits): the extension starts at the last dot, unless every
character before that dot is itself a dot (leading dots are not an extension). -/
def splitext (s : String) : String × String :=
  match lastDotIdx s.data with
  | none => (s, "")
  | some i =>
      if (s.data.take i).any (fun c => c ≠ '.') then
        (String.mk (s.data.take i), String.mk (s.data.drop i))
      else
        (s, "")

/-- `basename + latest_version + extension` (lines 174-175). -/
def versionedExecutableName (latestVersion : String) : String :=
  (splitext RELEASE_EXECUTABLE_NAME).1 ++ latestVersion ++ (splitext RELEASE_EXECUTABLE_NAME).2

/-- A directory as a map from file names to file contents (bytes). -/
def Directory : Type := String → Option (List Nat)

/-- `shutil.move(src, cwd / versioned_executable_name)`: places the content at
the destination name, replacing whatever file of that exact name existed
(`os.rename` overwrite, or the `copy2` fallback on platforms where rename
refuses to overwrite). -/
def moveInto (dir : Directory) (name : String) (content : List Nat) : Directory :=
  fun n => if n = name then some content else dir n

/-- The installation effect of `update` on the current working directory:
the extracted bytes appear under the versioned executable name (lines 176-179). -/
def installIntoCwd (cwd : Directory) (latestVersion : String) (content : List Nat) :
    Directory :=
  moveInto cwd (versionedExecutableName latestVersion) content

/-! ## Header cells and column widths (`main.py` lines 100-116) -/

/-- The header write loop (lines 101-102): one cell per schema field, in schema
order, as (row, column, text) with row 0. -/
def headerCells : List (Nat × Nat × String) :=
  fieldnames.enum.map (fun p => (0, p.1, p.2))

/-- The `set_column` calls issued by the two width loops (lines 105-116), in
program order: first width 13 for every date-typed column, then the
name-keyed widths 22 / 17 / 11 / 11. Each event is (column, width). -/
def widthEvents : List (Nat × Nat) :=
  fieldtypes.enum.filterMap
    (fun p => if p.2 = ExcelCellDataType.date then some (p.1, 13) else none)
  ++ fieldnames.enum.filterMap
      (fun p =>
        if p.2 = "基金名称" then some (p.1, 22)
        else if p.2 = "估算日期" then some (p.1, 17)
        else if p.2 = "实时估值" ∨ p.2 = "估算增长率" then some (p.1, 11)
        else none)

/-- The effective width of a column after all `set_column` calls: the last
event for that column wins; `none` means the default width is kept. -/
def colWidth (i : Nat) : Option Nat :=
  (widthEvents.reverse.find? (fun e => e.1 = i)).map (fun e => e.2)

/-! ## Python `float(str)` (used at `main.py` line 129)

The value of a finite literal is kept as an exact rational; the rounding of
that rational to a binary float is abstracted away (no claim depends on it). -/

inductive PyFloat where
  | finite (q : ℚ)
  | inf (neg : Bool)
  | nan
deriving DecidableEq

/-- Continuation of a digit-group scan: `c` is a digit already accepted; an
underscore is consumed only when flanked by digits on both sides. -/
def digitGroupGo (c : Char) : List Char → List Char × List Char
  | '_' :: d :: rest =>
    if d.isDigit then
      let p := digitGroupGo d rest
      (c :: p.1, p.2)
    else ([c], '_' :: d :: rest)
  | d :: rest =>
    if d.isDigit then
      let p := digitGroupGo d rest
      (c :: p.1, p.2)
    else ([c], d :: rest)
  | [] => ([c], [])

/-- Maximal-munch scan of a digit group as accepted by Python's numeric string
parsing: decimal digits with single underscores allowed between two digits.
Returns the scanned digits (underscores removed) and the unconsumed rest. -/
def digitGroup : List Char → List Char × List Char
  | c :: rest => if c.isDigit then digitGroupGo c rest else ([], c :: rest)
  | [] => ([], [])

/-- The exact rational value of a finite float literal with integer digits
`ip`, fraction digits `fp` and decimal exponent `e`. -/
def floatLiteralVal (neg : Bool) (ip fp : List Char) (e : ℤ) : ℚ :=
  (if neg then -1 else 1) * (natOfDigits (ip ++ fp) : ℚ) * (10 : ℚ) ^ (e - fp.length)

/-- The numeric branch of `float(str)`: `[digits][.digits][(e|E)[±]digits]`,
at least one mantissa digit, the whole remaining input consumed. -/
def pyFloatNum (neg : Bool) (cs : List Char) : Option PyFloat :=
  let ip := digitGroup cs
  let fr : List Char × List Char :=
    match ip.2 with
    | '.' :: r => digitGroup r
    | _ => ([], ip.2)
  if ip.1 = [] ∧ fr.1 = [] then none
  else
    match fr.2 with
    | [] => some (.finite (floatLiteralVal neg ip.1 fr.1 0))
    | e :: r =>
      if e = 'e' ∨ e = 'E' then
        let sr : Bool × List Char :=
          match r with
          | '+' :: rr => (false, rr)
          | '-' :: rr => (true, rr)
          | _ => (false, r)
        let ed := digitGroup sr.2
        if ed.1 = [] then none
        else if ed.2 = [] then
          some (.finite (floatLiteralVal neg ip.1 fr.1
            (if sr.1 then -(natOfDigits ed.1 : ℤ) else (natOfDigits ed.1 : ℤ))))
        else none
      else none

/-- `float(s)`: strip surrounding whitespace, take an optional sign, accept
case-insensitive `inf`/`infinity`/`nan` or a decimal literal; anything else
raises `ValueError`. -/
def pyFloat (s : String) : Option PyFloat :=
  let cs := ((s.data.dropWhile Char.isWhitespace).reverse.dropWhile
    Char.isWhitespace).reverse
  let sb : Bool × List Char :=
    match cs with
    | '+' :: r => (false, r)
    | '-' :: r => (true, r)
    | _ => (false, cs)
  let low := sb.2.map Char.toLower
  if low = ['i', 'n', 'f'] ∨ low = ['i', 'n', 'f', 'i', 'n', 'i', 't', 'y'] then
    some (.inf sb.1)
  else if low = ['n', 'a', 'n'] then some PyFloat.nan
  else pyFloatNum sb.1 sb.2

/-! ## `datetime.strptime(s, "%Y-%m-%d")` (used at `main.py` line 132)

CPython compiles the format to the regex `(\d\d\d\d)-(1[0-2]|0[1-9]|[1-9])-`
`(3[01]|[12]\d|0[1-9]|[1-9])`, requires the whole string to match, and then
constructs `datetime(year, month, day)`, which additionally requires
`year ≥ 1` and a calendar-valid day for the month. -/

structure PyDate where
  year : Nat
  month : Nat
  day : Nat
deriving DecidableEq

def isLeapYear (y : Nat) : Bool :=
  y % 4 = 0 && (y % 100 ≠ 0 || y % 400 = 0)

def daysInMonth (y m : Nat) : Nat :=
  if m = 2 then (if isLeapYear y then 29 else 28)
  else if m = 4 ∨ m = 6 ∨ m = 9 ∨ m = 11 then 30
  else 31

/-- The candidate parses of `%m`, i.e. of the regex alternation
`1[0-2]|0[1-9]|[1-9]`, in alternation order: (value, unconsumed rest). -/
def monthCands (cs : List Char) : List (Nat × List Char) :=
  (match cs with
   | a :: b :: r =>
     if a = '1' ∧ ('0' ≤ b ∧ b ≤ '2') then [(10 + (b.toNat - 48), r)]
     else if a = '0' ∧ ('1' ≤ b ∧ b ≤ '9') then [(b.toNat - 48, r)]
     else []
   | _ => []) ++
  (match cs with
   | a :: r => if '1' ≤ a ∧ a ≤ '9' then [(a.toNat - 48, r)] else []
   | _ => [])

/-- The candidate parses of `%d`, i.e. of `3[01]|[12]\d|0[1-9]|[1-9]`, in
alternation order. -/
def dayCands (cs : List Char) : List (Nat × List Char) :=
  (match cs with
   | a :: b :: r =>
     if a = '3' ∧ (b = '0' ∨ b = '1') then [(30 + (b.toNat - 48), r)]
     else if (a = '1' ∨ a = '2') ∧ b.isDigit then
       [((a.toNat - 48) * 10 + (b.toNat - 48), r)]
     else if a = '0' ∧ ('1' ≤ b ∧ b ≤ '9') then [(b.toNat - 48, r)]
     else []
   | _ => []) ++
  (match cs with
   | a :: r => if '1' ≤ a ∧ a ≤ '9' then [(a.toNat - 48, r)] else []
   | _ => [])

/-- `datetime.strptime(s, "%Y-%m-%d")`: four year digits, dash, month, dash,
day, nothing left over (backtracking over the alternations: the first full
match wins), then calendar validation. -/
def strptimeYmd (s : String) : Option PyDate :=
  match s.data with
  | y1 :: y2 :: y3 :: y4 :: '-' :: rest =>
    if y1.isDigit && y2.isDigit && y3.isDigit && y4.isDigit then
      let y := natOfDigits [y1, y2, y3, y4]
      let parses := (monthCands rest).flatMap (fun mc =>
        match mc.2 with
        | '-' :: rest2 =>
            (dayCands rest2).filterMap
              (fun dc => if dc.2 = [] then some (mc.1, dc.1) else none)
        | _ => [])
      match parses.head? with
      | some (m, d) => if 1 ≤ y ∧ d ≤ daysInMonth y m then some ⟨y, m, d⟩ else none
      | none => none
    else none
  | _ => none

/-! ## The body-writing loop of `write_to_xlsx` (`main.py` lines 88-139) -/

/-- A fund record: the string-keyed dict produced by the external fetcher. -/
def FundRecord : Type := List (String × String)

/-- `info[fieldname]`; `none` models the `KeyError` case. -/
def lookupField (info : FundRecord) (k : String) : Option String :=
  (info.find? (fun p => p.1 = k)).map (fun p => p.2)

/-- The exceptions the body loop can raise. -/
inductive PyErr where
  /-- `KeyError` from `info[fieldname]` (line 123). -/
  | keyError (field : String)
  /-- `ValueError` from `float(fieldvalue)` (line 129). -/
  | floatValueError (val : String)
  /-- `ValueError` from `datetime.strptime(fieldvalue, "%Y-%m-%d")` (line 132). -/
  | dateValueError (val : String)
  /-- `IndexError` from `fieldtypes[col]` (line 124). -/
  | indexOut (col : Nat)
  /-- `raise RuntimeError("Unreachable")` (line 135). -/
  | unreachable
deriving DecidableEq

/-- A worksheet cell write: string, number, or date with its display format. -/
inductive Cell where
  | str (row col : Nat) (v : String)
  | num (row col : Nat) (v : PyFloat)
  | date (row col : Nat) (d : PyDate) (fmt : String)
deriving DecidableEq

/-- One iteration of the inner loop (lines 122-135): look the field up in the
record, fetch `fieldtypes[col]`, dispatch on the type tag; the trailing branch
is `raise RuntimeError("Unreachable")`. Body rows start at worksheet row 1. -/
def writeCell (row col : Nat) (fieldname : String) (info : FundRecord) :
    Except PyErr Cell :=
  match lookupField info fieldname with
  | none => .error (.keyError fieldname)
  | some v =>
    match fieldtypes[col]? with
    | none => .error (.indexOut col)
    | some ft =>
      if ft = ExcelCellDataType.string then .ok (.str (row + 1) col v)
      else if ft = ExcelCellDataType.number then
        match pyFloat v with
        | some x => .ok (.num (row + 1) col x)
        | none => .error (.floatValueError v)
      else if ft = ExcelCellDataType.date then
        match strptimeYmd v with
        | some d => .ok (.date (row + 1) col d "yyyy-mm-dd")
        | none => .error (.dateValueError v)
      else .error .unreachable

/-- Left-to-right effectful map: the Python loop raises at the first failure. -/
def mapExcept (f : α → Except ε β) : List α → Except ε (List β)
  | [] => .ok []
  | a :: as =>
    match f a with
    | .error e => .error e
    | .ok b =>
      match mapExcept f as with
      | .error e => .error e
      | .ok bs => .ok (b :: bs)

/-- The inner loop over `enumerate(fieldnames)` for one record. -/
def writeRow (row : Nat) (info : FundRecord) : Except PyErr (List Cell) :=
  mapExcept (fun p => writeCell row p.1 p.2 info) fieldnames.enum

/-- The outer loop over `enumerate(infos)` (line 120). -/
def writeBody (infos : List FundRecord) : Except PyErr (List (List Cell)) :=
  mapExcept (fun p => writeRow p.1 p.2) infos.enum

/-- A finished workbook document, as materialised by a successful
`workbook.close()`. -/
structure Workbook where
  header : List (Nat × Nat × String)
  widths : List (Nat × Nat)
  body : List (List Cell)
deriving DecidableEq

/-- The single wrapping error of `write_to_xlsx` (line 139):
`raise RuntimeError("获取基金信息并写入 Excel 文档的时候发生错误") from exc`. -/
inductive ExportErr where
  | wrap (cause : PyErr)
deriving DecidableEq

instance {ε α : Type} [DecidableEq ε] [DecidableEq α] : DecidableEq (Except ε α) :=
  fun x y =>
    match x, y with
    | .error e, .error f =>
      if h : e = f then .isTrue (congrArg Except.error h)
      else .isFalse (fun hh => h (Except.error.inj hh))
    | .error _, .ok _ => .isFalse (fun hh => Except.noConfusion hh)
    | .ok _, .error _ => .isFalse (fun hh => Except.noConfusion hh)
    | .ok a, .ok b =>
      if h : a = b then .isTrue (congrArg Except.ok h)
      else .isFalse (fun hh => h (Except.ok.inj hh))

/-- `write_to_xlsx(infos, xlsx_filename)` as a function of the record list and
of the document currently at the output path. Header and width writes cannot
raise, the body loop can; `workbook.close()` (line 137) is the step that
materialises the document at the path, and it only runs after the whole body
loop succeeded. Any exception is caught once and re-raised as the single
wrapping error carrying the original exception as its cause, in which case the
path keeps whatever it held before. -/
def write_to_xlsx (infos : List FundRecord) (dest : Option Workbook) :
    Except ExportErr Unit × Option Workbook :=
  match writeBody infos with
  | .error e => (.error (.wrap e), dest)
  | .ok body => (.ok (), some ⟨headerCells, widthEvents, body⟩)

/-- A record whose Number-typed field `单位净值` holds the unparseable value
"abc" (all other fields well-formed). -/
def badRecord : FundRecord :=
  [("基金名称", "X"), ("基金代码", "000001"), ("净值日期", "2023-01-15"),
   ("单位净值", "abc"), ("日增长率", "1.0"), ("估算日期", "2023-01-15 15:00"),
   ("实时估值", "1.0"), ("估算增长率", "0.5%"), ("分红送配", "")]

end FundInfo

namespace FundInfo

/-- C3: the fund-code cleaning step accepts exactly the six-ASCII-digit lines,
silently discards all others, preserves the original relative order
(the output is a sublist of the input), and on the five example lines keeps
exactly `["000001", "999999"]` in that order. -/
theorem claim_C3_code_cleaning :
    (∀ (lines : List String) (s : String),
        s ∈ cleanCodes lines ↔ s ∈ lines ∧ isSixDigitCode s = true) ∧
    (∀ lines : List String, List.Sublist (cleanCodes lines) lines) ∧
    cleanCodes ["000001", "abc", "12345", "000002x", "999999"] = ["000001", "999999"] := by
  refine ⟨?_, ?_, ?_⟩
  · intro lines s
    simp [cleanCodes, List.mem_filter]
  · intro lines
    exact List.filter_sublist lines
  · decide

/-- Witness for C3 at concrete inputs. -/
theorem claim_C3_code_cleaning_witness :
    ("000001" ∈ cleanCodes ["000001", "abc"] ↔
      "000001" ∈ ["000001", "abc"] ∧ isSixDigitCode "000001" = true) ∧
    cleanCodes ["000001", "abc", "12345", "000002x", "999999"] = ["000001", "999999"] :=
  ⟨claim_C3_code_cleaning.1 ["000001", "abc"] "000001", claim_C3_code_cleaning.2.2⟩

/-- C6: asset lookup filters by exact name equality; zero matches fail with the
not-found error, exactly one match is returned, two or more matches fail with
the ambiguity error. -/
theorem claim_C6_find_asset (assets : List ReleaseAsset) (name : String) :
    (assets.filter (fun a => a.name = name) = [] →
        findAsset assets name = .error (.notFound name)) ∧
    (∀ a, assets.filter (fun a => a.name = name) = [a] →
        findAsset assets name = .ok a) ∧
    (∀ a b rest, assets.filter (fun a => a.name = name) = a :: b :: rest →
        findAsset assets name = .error (.ambiguous name)) := by
  refine ⟨?_, ?_, ?_⟩
  · intro h
    simp [findAsset, h]
  · intro a h
    simp [findAsset, h]
  · intro a b rest h
    simp [findAsset, h]

/-- Witness for C6: a two-element asset list with exactly one match. -/
theorem claim_C6_find_asset_witness :
    ([⟨"a.zip", "u1"⟩, ⟨"b.zip", "u2"⟩] : List ReleaseAsset).filter
        (fun a => a.name = "b.zip") = [⟨"b.zip", "u2"⟩] ∧
    findAsset [⟨"a.zip", "u1"⟩, ⟨"b.zip", "u2"⟩] "b.zip" = .ok ⟨"b.zip", "u2"⟩ :=
  ⟨by decide,
   (claim_C6_find_asset [⟨"a.zip", "u1"⟩, ⟨"b.zip", "u2"⟩] "b.zip").2.1
     ⟨"b.zip", "u2"⟩ (by decide)⟩

/-- C7: version comparison is the lexicographic order on (major, minor, patch),
an update is available exactly when the remote version compares greater than
the local one, and the three example comparisons hold. -/
theorem claim_C7_version_order :
    (∀ remote localv : Nat × Nat × Nat,
        updateAvailable remote localv = true ↔ compareVersion remote localv = .gt) ∧
    compareVersion (1, 2, 3) (1, 3, 0) = .lt ∧
    compareVersion (2, 0, 0) (1, 9, 9) = .gt ∧
    compareVersion (1, 0, 0) (1, 0, 0) = .eq := by
  refine ⟨?_, by decide, by decide, by decide⟩
  intro remote localv
  obtain ⟨a, b, c⟩ := remote
  obtain ⟨d, e, f⟩ := localv
  simp only [updateAvailable, pyTupleGt, compareVersion]
  split_ifs <;> simp_all <;> omega

/-- Witness for C7 at a concrete pair of versions. -/
theorem claim_C7_version_order_witness :
    (updateAvailable (2, 0, 0) (1, 9, 9) = true ↔
      compareVersion (2, 0, 0) (1, 9, 9) = .gt) ∧
    compareVersion (1, 2, 3) (1, 3, 0) = .lt :=
  ⟨claim_C7_version_order.1 (2, 0, 0) (1, 9, 9), claim_C7_version_order.2.1⟩

/-- C2: the name-repair step is a pure function of the true member name
(GBK-encode, then CP437-decode); applied once to "基金信息生成器.exe" it yields
the stored lookup name that `update` passes to the archive extraction, and two
applications to the same input yield the same output. -/
theorem claim_C2_name_repair :
    nameRepair RELEASE_EXECUTABLE_NAME = some "╗∙╜≡╨┼╧ó╔·│╔╞≈.exe" ∧
    transformedExecutableName = nameRepair RELEASE_EXECUTABLE_NAME ∧
    (∀ (s t u : String), nameRepair s = some t → nameRepair s = some u → t = u) := by
  refine ⟨by decide, rfl, ?_⟩
  intro s t u h1 h2
  rw [h1] at h2
  exact Option.some_inj.mp h2

/-- Witness for C2: determinism applied at the fixed true member name. -/
theorem claim_C2_name_repair_witness :
    ("╗∙╜≡╨┼╧ó╔·│╔╞≈.exe" : String) = "╗∙╜≡╨┼╧ó╔·│╔╞≈.exe" :=
  claim_C2_name_repair.2.2 RELEASE_EXECUTABLE_NAME _ _
    claim_C2_name_repair.1 claim_C2_name_repair.1

/-- C8: for every version string the installed filename is exactly
baseName ++ versionString ++ extension with baseName and extension split from
the true executable name, and installation places the content at that name in
the working directory, overwriting any existing file of that name. -/
theorem claim_C8_versioned_install (v : String) :
    splitext RELEASE_EXECUTABLE_NAME = ("基金信息生成器", ".exe") ∧
    versionedExecutableName v = "基金信息生成器" ++ v ++ ".exe" ∧
    (∀ (cwd : Directory) (content : List Nat),
        installIntoCwd cwd v content (versionedExecutableName v) = some content) := by
  refine ⟨by decide, ?_, ?_⟩
  · show (splitext RELEASE_EXECUTABLE_NAME).1 ++ v ++ (splitext RELEASE_EXECUTABLE_NAME).2
        = "基金信息生成器" ++ v ++ ".exe"
    have h : splitext RELEASE_EXECUTABLE_NAME = ("基金信息生成器", ".exe") := by decide
    rw [h]
  · intro cwd content
    simp [installIntoCwd, moveInto]

/-- Witness for C8 at the concrete version tag "v0.2.0" and an empty directory. -/
theorem claim_C8_versioned_install_witness :
    versionedExecutableName "v0.2.0" = "基金信息生成器" ++ "v0.2.0" ++ ".exe" ∧
    installIntoCwd (fun _ => none) "v0.2.0" [1, 2, 3]
      (versionedExecutableName "v0.2.0") = some [1, 2, 3] :=
  ⟨(claim_C8_versioned_install "v0.2.0").2.1,
   (claim_C8_versioned_install "v0.2.0").2.2 (fun _ => none) [1, 2, 3]⟩

/-- C9: the header is one cell per schema field in schema order; every
date-typed column gets width 13; the fund-name, estimate-date, real-time
estimate and estimate-growth-rate columns get widths 22, 17, 11, 11; every
other column keeps the default width. -/
theorem claim_C9_header_and_widths :
    headerCells = [(0, 0, "基金名称"), (0, 1, "基金代码"), (0, 2, "净值日期"),
      (0, 3, "单位净值"), (0, 4, "日增长率"), (0, 5, "估算日期"), (0, 6, "实时估值"),
      (0, 7, "估算增长率"), (0, 8, "分红送配")] ∧
    (∀ i, i < fieldtypes.length →
        fieldtypes.get? i = some ExcelCellDataType.date → colWidth i = some 13) ∧
    (∀ i, i < fieldnames.length →
        fieldnames.get? i = some "基金名称" → colWidth i = some 22) ∧
    (∀ i, i < fieldnames.length →
        fieldnames.get? i = some "估算日期" → colWidth i = some 17) ∧
    (∀ i, i < fieldnames.length →
        (fieldnames.get? i = some "实时估值" ∨ fieldnames.get? i = some "估算增长率") →
        colWidth i = some 11) ∧
    (∀ i, i < fieldnames.length →
        (fieldtypes.get? i ≠ some ExcelCellDataType.date ∧
         fieldnames.get? i ≠ some "基金名称" ∧
         fieldnames.get? i ≠ some "估算日期" ∧
         fieldnames.get? i ≠ some "实时估值" ∧
         fieldnames.get? i ≠ some "估算增长率") →
        colWidth i = none) := by
  refine ⟨by decide, ?_, ?_, ?_, ?_, ?_⟩ <;> decide

/-- Witness for C9 at concrete columns: the date column 2, the fund-name
column 0, and the untouched column 1. -/
theorem claim_C9_header_and_widths_witness :
    colWidth 2 = some 13 ∧ colWidth 0 = some 22 ∧ colWidth 1 = none :=
  ⟨claim_C9_header_and_widths.2.1 2 (by decide) (by decide),
   claim_C9_header_and_widths.2.2.1 0 (by decide) (by decide),
   claim_C9_header_and_widths.2.2.2.2.2 1 (by decide) (by decide)⟩

/-- Helper: an error from `mapExcept` comes from some list element. -/
theorem mapExcept_error_mem {α β ε : Type} (f : α → Except ε β) (l : List α) (e : ε)
    (h : mapExcept f l = .error e) : ∃ a ∈ l, f a = .error e := by
  induction l with
  | nil => simp [mapExcept] at h
  | cons a as ih =>
    simp only [mapExcept] at h
    cases hfa : f a with
    | error e' =>
      rw [hfa] at h
      refine ⟨a, List.mem_cons_self a as, ?_⟩
      rw [hfa]
      simpa using h
    | ok b =>
      rw [hfa] at h
      cases hrec : mapExcept f as with
      | error e' =>
        rw [hrec] at h
        obtain ⟨x, hx, hfx⟩ := ih (by rw [hrec]; simpa using h)
        exact ⟨x, List.mem_cons_of_mem a hx, hfx⟩
      | ok bs => rw [hrec] at h; simp at h

/-- Helper: indices produced by `enumFrom` are below `start + length`. -/
theorem enumFrom_fst_lt {α : Type} (l : List α) (n : Nat) (p : Nat × α)
    (h : p ∈ l.enumFrom n) : p.1 < n + l.length := by
  induction l generalizing n with
  | nil => simp [List.enumFrom] at h
  | cons a as ih =>
    simp only [List.enumFrom, List.mem_cons] at h
    rcases h with h | h
    · rw [h]
      show n < n + (as.length + 1)
      omega
    · have := ih (n + 1) h
      rw [List.length_cons]
      omega

/-- Helper: an in-range cell write never yields the index or unreachable
errors: the type tag it finds is one of the three enum cases, each handled. -/
theorem writeCell_error_kinds (row col : Nat) (fn : String) (info : FundRecord)
    (e : PyErr) (hcol : col < fieldtypes.length)
    (h : writeCell row col fn info = .error e) :
    e ≠ .unreachable ∧ ∀ c, e ≠ .indexOut c := by
  cases hl : lookupField info fn with
  | none =>
    simp only [writeCell, hl] at h
    have he : e = .keyError fn := by
      cases h
      rfl
    subst he
    exact ⟨by simp, fun c => by simp⟩
  | some v =>
    cases hg : fieldtypes[col]? with
    | none =>
      exfalso
      have hsome := List.getElem?_eq_getElem (l := fieldtypes) hcol
      rw [hg] at hsome
      exact Option.noConfusion hsome
    | some ft =>
      cases ft with
      | string => simp [writeCell, hl, hg] at h
      | number =>
        cases hv : pyFloat v with
        | some x => simp [writeCell, hl, hg, hv] at h
        | none =>
          have he : e = .floatValueError v := by
            simp [writeCell, hl, hg, hv] at h
            exact h.symm
          subst he
          exact ⟨by simp, fun c => by simp⟩
      | date =>
        cases hv : strptimeYmd v with
        | some d => simp [writeCell, hl, hg, hv] at h
        | none =>
          have he : e = .dateValueError v := by
            simp [writeCell, hl, hg, hv] at h
            exact h.symm
          subst he
          exact ⟨by simp, fun c => by simp⟩

/-- C10: the schema constants have equal length and pairwise-distinct names,
so the body loop always finds an in-range type tag that is one of the three
enum cases: whatever error a body write raises, it is never the IndexError of
`fieldtypes[col]` and never the `RuntimeError("Unreachable")` branch. -/
theorem claim_C10_schema_safety :
    fieldnames.length = fieldtypes.length ∧
    fieldnames.Nodup ∧
    (∀ (infos : List FundRecord) (e : PyErr),
        writeBody infos = .error e →
        e ≠ .unreachable ∧ ∀ c, e ≠ .indexOut c) := by
  refine ⟨by decide, by decide, ?_⟩
  intro infos e h
  obtain ⟨p, _, hrow⟩ := mapExcept_error_mem _ _ _ h
  have hrow' : mapExcept (fun q => writeCell p.1 q.1 q.2 p.2) fieldnames.enum
      = .error e := hrow
  obtain ⟨q, hq, hcell⟩ := mapExcept_error_mem _ _ _ hrow'
  have hlen : fieldnames.length = fieldtypes.length := by decide
  have hlt : q.1 < fieldtypes.length := by
    have := enumFrom_fst_lt fieldnames 0 q hq
    omega
  exact writeCell_error_kinds p.1 q.1 q.2 p.2 e hlt hcell

/-- Witness for C10: a record list whose body write fails (the bad number
"abc") raises neither the index error nor the unreachable error. -/
theorem claim_C10_schema_safety_witness :
    PyErr.floatValueError "abc" ≠ PyErr.unreachable ∧
    ∀ c, PyErr.floatValueError "abc" ≠ PyErr.indexOut c :=
  claim_C10_schema_safety.2.2 [badRecord] (.floatValueError "abc") (by decide)

/-- C4: whenever the body of the export fails, `write_to_xlsx` surfaces a
single wrapping error carrying the original cause and the destination path
never receives a completed document; in particular exporting the record whose
Number-typed field holds "abc" fails that way with an untouched destination. -/
theorem claim_C4_export_error_wrapping :
    (∀ (infos : List FundRecord) (dest : Option Workbook) (e : PyErr),
        writeBody infos = .error e →
        write_to_xlsx infos dest = (.error (.wrap e), dest)) ∧
    write_to_xlsx [badRecord] none =
      (.error (.wrap (.floatValueError "abc")), none) := by
  refine ⟨?_, by decide⟩
  intro infos dest e h
  simp [write_to_xlsx, h]

/-- Witness for C4: the wrapping applied at the concrete bad record. -/
theorem claim_C4_export_error_wrapping_witness :
    write_to_xlsx [badRecord] none =
      (.error (.wrap (.floatValueError "abc")), none) :=
  claim_C4_export_error_wrapping.1 [badRecord] none (.floatValueError "abc")
    (by decide)

/-- C5: per-field behaviour of the body write, for every record and column:
a missing field raises the key error; a String-typed value is written raw and
unmodified; a Number-typed value is written as its parsed float and raises on
an unparseable value; a Date-typed value is parsed with `%Y-%m-%d`, raises on
a mismatch, and is written with the display format "yyyy-mm-dd". -/
theorem claim_C5_field_typing (row col : Nat) (fieldname v : String)
    (info : FundRecord) :
    (lookupField info fieldname = none →
        writeCell row col fieldname info = .error (.keyError fieldname)) ∧
    (lookupField info fieldname = some v →
      (fieldtypes[col]? = some ExcelCellDataType.string →
          writeCell row col fieldname info = .ok (.str (row + 1) col v)) ∧
      (fieldtypes[col]? = some ExcelCellDataType.number →
          (∀ x, pyFloat v = some x →
              writeCell row col fieldname info = .ok (.num (row + 1) col x)) ∧
          (pyFloat v = none →
              writeCell row col fieldname info = .error (.floatValueError v))) ∧
      (fieldtypes[col]? = some ExcelCellDataType.date →
          (∀ d, strptimeYmd v = some d →
              writeCell row col fieldname info =
                .ok (.date (row + 1) col d "yyyy-mm-dd")) ∧
          (strptimeYmd v = none →
              writeCell row col fieldname info = .error (.dateValueError v)))) := by
  constructor
  · intro h
    simp [writeCell, h]
  · intro hl
    refine ⟨?_, ?_, ?_⟩
    · intro hg
      simp [writeCell, hl, hg]
    · intro hg
      refine ⟨?_, ?_⟩
      · intro x hx
        simp [writeCell, hl, hg, hx]
      · intro hx
        simp [writeCell, hl, hg, hx]
    · intro hg
      refine ⟨?_, ?_⟩
      · intro d hd
        simp [writeCell, hl, hg, hd]
      · intro hd
        simp [writeCell, hl, hg, hd]

/-- Helper: scanning a digit run followed by a non-digit (or nothing) splits
exactly at the boundary. -/
theorem takeWhile_digits_of_append (xs ys : List Char)
    (hxs : ∀ c ∈ xs, Char.isDigit c = true)
    (hys : ∀ y, ys.head? = some y → Char.isDigit y = false) :
    (xs ++ ys).takeWhile Char.isDigit = xs ∧
    (xs ++ ys).dropWhile Char.isDigit = ys := by
  induction xs with
  | nil =>
    simp only [List.nil_append]
    cases ys with
    | nil => simp
    | cons y yt =>
      have hy := hys y rfl
      simp [List.takeWhile_cons, List.dropWhile_cons, hy]
  | cons x xt ih =>
    have hx := hxs x (List.mem_cons_self x xt)
    have ih' := ih (fun c hc => hxs c (List.mem_cons_of_mem x hc))
    simp [List.takeWhile_cons, List.dropWhile_cons, hx, ih'.1, ih'.2]

/-- Helper: an all-digit list is its own digit scan. -/
theorem takeWhile_digits_self (xs : List Char)
    (hxs : ∀ c ∈ xs, Char.isDigit c = true) :
    xs.takeWhile Char.isDigit = xs := by
  induction xs with
  | nil => rfl
  | cons x xt ih =>
    have hx := hxs x (List.mem_cons_self x xt)
    simp [List.takeWhile_cons, hx,
      ih (fun c hc => hxs c (List.mem_cons_of_mem x hc))]

/-- Helper: a digit scan starting at a digit is nonempty. -/
theorem takeWhile_digits_ne_nil (x : Char) (xt ys : List Char)
    (hx : Char.isDigit x = true) :
    ((x :: xt) ++ ys).takeWhile Char.isDigit ≠ [] := by
  simp [List.takeWhile_cons, hx]

/-- Helper: the parser on a well-shaped body followed by arbitrary input:
it succeeds, the first two groups are exactly the given digit runs, and the
third group greedily extends into the trailing input. -/
theorem parseVersionCore_append (v : Bool) (d1 d2 d3 rest : List Char)
    (h1 : d1 ≠ []) (h2 : d2 ≠ []) (h3 : d3 ≠ [])
    (hd1 : ∀ c ∈ d1, Char.isDigit c = true)
    (hd2 : ∀ c ∈ d2, Char.isDigit c = true)
    (hd3 : ∀ c ∈ d3, Char.isDigit c = true) :
    parseVersionCore
        ((if v then ['v'] else []) ++ d1 ++ '.' :: (d2 ++ '.' :: (d3 ++ rest)))
      = some (natOfDigits d1, natOfDigits d2,
          natOfDigits ((d3 ++ rest).takeWhile Char.isDigit)) := by
  obtain ⟨c1, d1t, hc1⟩ := List.exists_cons_of_ne_nil h1
  have hbody : parseVersionAfterV (d1 ++ '.' :: (d2 ++ '.' :: (d3 ++ rest)))
      = some (natOfDigits d1, natOfDigits d2,
          natOfDigits ((d3 ++ rest).takeWhile Char.isDigit)) := by
    have hstep1 := takeWhile_digits_of_append d1 ('.' :: (d2 ++ '.' :: (d3 ++ rest)))
      hd1 (by intro y hy; cases hy; decide)
    have hstep2 := takeWhile_digits_of_append d2 ('.' :: (d3 ++ rest))
      hd2 (by intro y hy; cases hy; decide)
    obtain ⟨c3, d3t, hc3⟩ := List.exists_cons_of_ne_nil h3
    have h3ne : ((d3 ++ rest).takeWhile Char.isDigit) ≠ [] := by
      rw [hc3]
      exact takeWhile_digits_ne_nil c3 d3t rest
        (hd3 c3 (by rw [hc3]; exact List.mem_cons_self c3 d3t))
    simp only [parseVersionAfterV, hstep1.1, hstep1.2, List.head?_cons,
      List.tail_cons, hstep2.1, hstep2.2]
    simp [h1, h2, h3ne]
  cases v with
  | true =>
    show parseVersionAfterV
        (if (('v' :: (d1 ++ '.' :: (d2 ++ '.' :: (d3 ++ rest)))).head? = some 'v')
         then ('v' :: (d1 ++ '.' :: (d2 ++ '.' :: (d3 ++ rest)))).tail
         else ('v' :: (d1 ++ '.' :: (d2 ++ '.' :: (d3 ++ rest))))) = _
    rw [if_pos (by simp), List.tail_cons]
    exact hbody
  | false =>
    have hc1d : Char.isDigit c1 = true := hd1 c1 (by rw [hc1]; exact List.mem_cons_self c1 d1t)
    have hcv : c1 ≠ 'v' := by
      intro hcv
      rw [hcv] at hc1d
      exact absurd hc1d (by decide)
    show parseVersionAfterV
        (if ((d1 ++ '.' :: (d2 ++ '.' :: (d3 ++ rest))).head? = some 'v')
         then (d1 ++ '.' :: (d2 ++ '.' :: (d3 ++ rest))).tail
         else (d1 ++ '.' :: (d2 ++ '.' :: (d3 ++ rest)))) = _
    rw [if_neg (by rw [hc1]; simp [hcv]), hbody]

/-- Helper: a list whose `head?` is `some a` is `a ::` its tail. -/
theorem eq_cons_of_head {α : Type} (l : List α) (a : α) (h : l.head? = some a) :
    l = a :: l.tail := by
  cases l with
  | nil => simp at h
  | cons x t =>
    simp only [List.head?_cons, Option.some.injEq] at h
    rw [h]
    rfl

/-- Helper: a successful run of the regex body decomposes its input into three
digit runs, two dots, and trailing input. -/
theorem parseVersionAfterV_isSome_decomp (cs1 : List Char)
    (h : (parseVersionAfterV cs1).isSome = true) :
    ∃ d1 d2 d3 r3,
      d1 ≠ [] ∧ d2 ≠ [] ∧ d3 ≠ [] ∧
      (∀ c ∈ d1, Char.isDigit c = true) ∧
      (∀ c ∈ d2, Char.isDigit c = true) ∧
      (∀ c ∈ d3, Char.isDigit c = true) ∧
      cs1 = d1 ++ '.' :: (d2 ++ '.' :: (d3 ++ r3)) := by
  simp only [parseVersionAfterV] at h
  split_ifs at h with hA hB hC hD hE <;> simp at h
  · refine ⟨cs1.takeWhile Char.isDigit,
      (cs1.dropWhile Char.isDigit).tail.takeWhile Char.isDigit,
      ((cs1.dropWhile Char.isDigit).tail.dropWhile Char.isDigit).tail.takeWhile
        Char.isDigit,
      ((cs1.dropWhile Char.isDigit).tail.dropWhile Char.isDigit).tail.dropWhile
        Char.isDigit,
      hA, hC, hE,
      fun c hc => List.mem_takeWhile_imp hc,
      fun c hc => List.mem_takeWhile_imp hc,
      fun c hc => List.mem_takeWhile_imp hc, ?_⟩
    have e1 : cs1 = cs1.takeWhile Char.isDigit ++ cs1.dropWhile Char.isDigit :=
      (List.takeWhile_append_dropWhile Char.isDigit cs1).symm
    have hr1 := eq_cons_of_head _ _ hB
    have e2 : (cs1.dropWhile Char.isDigit).tail =
        (cs1.dropWhile Char.isDigit).tail.takeWhile Char.isDigit ++
          (cs1.dropWhile Char.isDigit).tail.dropWhile Char.isDigit :=
      (List.takeWhile_append_dropWhile Char.isDigit _).symm
    have hr2 := eq_cons_of_head _ _ hD
    have e3 : ((cs1.dropWhile Char.isDigit).tail.dropWhile Char.isDigit).tail =
        ((cs1.dropWhile Char.isDigit).tail.dropWhile Char.isDigit).tail.takeWhile
            Char.isDigit ++
          ((cs1.dropWhile Char.isDigit).tail.dropWhile Char.isDigit).tail.dropWhile
            Char.isDigit :=
      (List.takeWhile_append_dropWhile Char.isDigit _).symm
    conv_lhs => rw [e1, hr1, e2, hr2, e3]

/-- Helper: a successful parse means the string starts with a version shape. -/
theorem parseVersionCore_isSome_shape (cs : List Char)
    (h : (parseVersionCore cs).isSome = true) :
    ∃ pre rest M N P, cs = pre ++ rest ∧ VersionShapeL pre M N P := by
  by_cases hv : cs.head? = some 'v'
  · have hcs := eq_cons_of_head _ _ hv
    have h' : (parseVersionAfterV cs.tail).isSome = true := by
      simpa only [parseVersionCore, if_pos hv] using h
    obtain ⟨d1, d2, d3, r3, h1, h2, h3, hD1, hD2, hD3, heq⟩ :=
      parseVersionAfterV_isSome_decomp _ h'
    refine ⟨['v'] ++ d1 ++ '.' :: (d2 ++ '.' :: d3), r3,
      natOfDigits d1, natOfDigits d2, natOfDigits d3, ?_, ?_⟩
    · conv_lhs => rw [hcs, heq]
      simp [List.append_assoc]
    · exact ⟨true, d1, d2, d3, h1, h2, h3, hD1, hD2, hD3, by simp, rfl, rfl, rfl⟩
  · have h' : (parseVersionAfterV cs).isSome = true := by
      simpa only [parseVersionCore, if_neg hv] using h
    obtain ⟨d1, d2, d3, r3, h1, h2, h3, hD1, hD2, hD3, heq⟩ :=
      parseVersionAfterV_isSome_decomp _ h'
    refine ⟨d1 ++ '.' :: (d2 ++ '.' :: d3), r3,
      natOfDigits d1, natOfDigits d2, natOfDigits d3, ?_, ?_⟩
    · conv_lhs => rw [heq]
      simp [List.append_assoc]
    · exact ⟨false, d1, d2, d3, h1, h2, h3, hD1, hD2, hD3, by simp, rfl, rfl, rfl⟩

/-- C1 (amended): every string exactly of the shape `v?M.N.P` parses to
(M, N, P); and parsing succeeds exactly when the string has a prefix of that
shape — `re.match` is anchored at the start but not at the end, so a matching
prefix followed by trailing input is also accepted. -/
theorem claim_C1_version_parsing_amended :
    (∀ (s : String) (M N P : Nat), VersionShape s M N P →
        parse_version_number s = some (M, N, P)) ∧
    (∀ s : String, (parse_version_number s).isSome = true ↔
        ∃ pre rest M N P, s.data = pre ++ rest ∧ VersionShapeL pre M N P) := by
  constructor
  · intro s M N P hshape
    obtain ⟨v, d1, d2, d3, h1, h2, h3, hd1, hd2, hd3, heq, hM, hN, hP⟩ := hshape
    subst hM hN hP
    show parseVersionCore s.data = _
    rw [heq, ← List.append_nil d3,
      parseVersionCore_append v d1 d2 d3 [] h1 h2 h3 hd1 hd2 hd3,
      List.append_nil, takeWhile_digits_self d3 hd3]
  · intro s
    constructor
    · exact parseVersionCore_isSome_shape s.data
    · rintro ⟨pre, rest, M, N, P, hsplit,
        v, d1, d2, d3, h1, h2, h3, hd1, hd2, hd3, heq, _, _, _⟩

      show (parseVersionCore s.data).isSome = true
      have hall : s.data =
          (if v then ['v'] else []) ++ d1 ++ '.' :: (d2 ++ '.' :: (d3 ++ rest)) := by
        rw [hsplit, heq]
        simp [List.append_assoc]
      rw [hall, parseVersionCore_append v d1 d2 d3 rest h1 h2 h3 hd1 hd2 hd3]
      rfl

/-- Witness for C1's amended theorem at concrete strings: "v1.2.3" is exactly
of the shape and parses to (1, 2, 3); "x" has no shape prefix. -/
theorem claim_C1_version_parsing_amended_witness :
    parse_version_number "v1.2.3" = some (1, 2, 3) ∧
    ((parse_version_number "x").isSome = true ↔
      ∃ pre rest M N P, "x".data = pre ++ rest ∧ VersionShapeL pre M N P) :=
  ⟨claim_C1_version_parsing_amended.1 "v1.2.3" 1 2 3
      ⟨true, ['1'], ['2'], ['3'], by decide, by decide, by decide, by decide,
        by decide, by decide, by decide, by decide, by decide, by decide⟩,
   claim_C1_version_parsing_amended.2 "x"⟩

/-- C1 counterexample: "1.2.3x" is not of the claimed shape, yet
`parse_version_number` accepts it and returns (1, 2, 3) — the claim's
"for every string s not of that shape, parsing fails" is false on the code. -/
theorem claim_C1_version_parsing_counterexample :
    parse_version_number "1.2.3x" = some (1, 2, 3) ∧
    ¬ ∃ M N P, VersionShape "1.2.3x" M N P := by
  refine ⟨by decide, ?_⟩
  rintro ⟨M, N, P, v, d1, d2, d3, h1, h2, h3, hd1, hd2, hd3, heq, _, _, _⟩
  have hlast := congrArg List.getLast? heq
  rw [show ("1.2.3x".data.getLast? : Option Char) = some 'x' from rfl] at hlast
  rw [show ((if v then ['v'] else []) ++ d1 ++ '.' :: (d2 ++ '.' :: d3))
      = (((if v then ['v'] else []) ++ d1) ++ ('.' :: d2)) ++ ('.' :: d3) by
    simp [List.append_assoc]] at hlast
  rw [List.getLast?_append_cons] at hlast
  have hx : ('x' : Char) ∈ ('.' :: d3) := by
    obtain ⟨hne, hxe⟩ := List.mem_getLast?_eq_getLast (Option.mem_def.mpr hlast.symm)
    rw [hxe]
    exact List.getLast_mem hne
  rcases List.mem_cons.mp hx with hx | hx
  · exact absurd hx (by decide)
  · have := hd3 'x' hx
    exact absurd this (by decide)

/-- Witness for C5 at concrete cells: a raw string write, a failing number
write, a date write with the fixed display format, and a missing field. -/
theorem claim_C5_field_typing_witness :
    writeCell 0 0 "基金名称" badRecord = .ok (.str 1 0 "X") ∧
    writeCell 0 3 "单位净值" badRecord = .error (.floatValueError "abc") ∧
    writeCell 0 2 "净值日期" badRecord = .ok (.date 1 2 ⟨2023, 1, 15⟩ "yyyy-mm-dd") ∧
    writeCell 0 0 "missing" [] = .error (.keyError "missing") :=
  ⟨((claim_C5_field_typing 0 0 "基金名称" "X" badRecord).2 (by decide)).1 (by decide),
   (((claim_C5_field_typing 0 3 "单位净值" "abc" badRecord).2 (by decide)).2.1
      (by decide)).2 (by decide),
   (((claim_C5_field_typing 0 2 "净值日期" "2023-01-15" badRecord).2 (by decide)).2.2
      (by decide)).1 ⟨2023, 1, 15⟩ (by decide),
   (claim_C5_field_typing 0 0 "missing" "x" []).1 (by decide)⟩

end FundInfo
